import Mathlib

/-! Shallow embedding of the pixel-logger webhook.  Source: `src/api/pixel.js`
(structured variant, Google-Sheet logging plus GoHighLevel CRM sync) and the
free-form variant (`src/unnamed/part_000`).

JavaScript values are modelled by `JSVal`; JS numbers are modelled as integers
(no claim involves fractional arithmetic).  The only throwing operations the
handler can reach are property access on `null`/`undefined`, `for...of` over a
non-iterable value, and calling `.split` on a non-string; they are modelled in
the `Except String` monad.  Object literals are association lists with unique
keys (JS object construction keeps one entry per key), so first-match lookup
is the JS property lookup. -/

/-- JS `String.prototype.split` with a one-character separator, implemented
structurally on the character list (so that concrete runs reduce):
`"" → [""]`, `"a,b" → ["a","b"]`, `"," → ["",""]`. -/
def splitChars (sep : Char) : List Char → List (List Char)
  | [] => [[]]
  | c :: cs =>
      let rest := splitChars sep cs
      if c = sep then [] :: rest
      else
        match rest with
        | [] => [[c]]
        | r :: rs => (c :: r) :: rs

def jsSplit (s : String) (sep : Char) : List String :=
  (splitChars sep s.toList).map String.mk

/-- JS `String.prototype.trim`: strip leading and trailing whitespace. -/
def jsTrim (s : String) : String :=
  String.mk (((s.toList.dropWhile Char.isWhitespace).reverse.dropWhile
    Char.isWhitespace).reverse)

/-- JS `value.startsWith('+')`. -/
def startsWithPlus (s : String) : Bool :=
  match s.toList with
  | c :: _ => c = '+'
  | [] => false

inductive JSVal where
  | undefined
  | null
  | bool (b : Bool)
  | num (n : Int)
  | str (s : String)
  | obj (fields : List (String × JSVal))
  | arr (elems : List JSVal)

/-- JS truthiness: `undefined`, `null`, `false`, `0`, and `""` are falsy;
every object and array (even empty) is truthy. -/
def JSVal.truthy : JSVal → Bool
  | .undefined => false
  | .null => false
  | .bool b => b
  | .num n => n != 0
  | .str s => s != ""
  | .obj _ => true
  | .arr _ => true

def JSVal.isNull : JSVal → Bool
  | .null => true
  | _ => false

def JSVal.isUndefined : JSVal → Bool
  | .undefined => true
  | _ => false

/-- Total property access for values that are not `null`/`undefined`:
`obj[key]` is the stored field (or `undefined`), arrays expose `length` and
numeric indices, strings expose `length` and numeric indices, and every other
primitive yields `undefined`. -/
def JSVal.index' : JSVal → String → JSVal
  | .obj fs, k => (List.lookup k fs).getD .undefined
  | .arr es, k =>
      if k = "length" then .num es.length
      else match k.toNat? with
        | some i => es.getD i .undefined
        | none => .undefined
  | .str s, k =>
      if k = "length" then .num s.length
      else match k.toNat? with
        | some i => (s.toList.get? i).elim .undefined (fun c => .str (String.mk [c]))
        | none => .undefined
  | _, _ => .undefined

/-- JS property access `v[k]`: throws a `TypeError` on `null`/`undefined`,
otherwise behaves like `index'`. -/
def JSVal.index : JSVal → String → Except String JSVal
  | .null, k => .error ("TypeError: cannot read properties of null (reading " ++ k ++ ")")
  | .undefined, k => .error ("TypeError: cannot read properties of undefined (reading " ++ k ++ ")")
  | v, k => .ok (v.index' k)

/-- JS `for...of`: arrays iterate their elements, strings iterate their
characters (as one-character strings), everything else throws. -/
def JSVal.iterate : JSVal → Except String (List JSVal)
  | .arr es => .ok es
  | .str s => .ok (s.toList.map (fun c => JSVal.str (String.mk [c])))
  | _ => .error "TypeError: events is not iterable"

/-- JS `value.split(',')`: a method that only exists on strings; calling it on
anything else throws a `TypeError`. -/
def JSVal.splitComma : JSVal → Except String (List String)
  | .str s => .ok (jsSplit s ',')
  | _ => .error "TypeError: value.split is not a function"

mutual

/-- JS string conversion as used inside a template literal: objects print as
`[object Object]`, arrays join their elements with commas (with `null` and
`undefined` elements printed as empty). -/
def JSVal.toJSString : JSVal → String
  | .undefined => "undefined"
  | .null => "null"
  | .bool b => cond b "true" "false"
  | .num n => toString n
  | .str s => s
  | .obj _ => "[object Object]"
  | .arr es => arrayJoin es

def arrayJoin : List JSVal → String
  | [] => ""
  | [v] => arrayElemString v
  | v :: rest => arrayElemString v ++ "," ++ arrayJoin rest

def arrayElemString : JSVal → String
  | .undefined => ""
  | .null => ""
  | .bool b => cond b "true" "false"
  | .num n => toString n
  | .str s => s
  | .obj _ => "[object Object]"
  | .arr es => arrayJoin es

end

-- ### The nested-path getter (pixel.js lines 136-144)

/-- The loop body of `get`: for each key, first check for `null`/`undefined`
(returning the default), then index; after the last key only `undefined` is
replaced by the default (a final `null` is returned as is). -/
def getLoop (defaultValue : JSVal) : List String → JSVal → Except String JSVal
  | [], result => .ok (if result.isUndefined then defaultValue else result)
  | key :: keys, result =>
      if result.isNull || result.isUndefined then .ok defaultValue
      else do getLoop defaultValue keys (← result.index key)

/-- `get(obj, path, defaultValue = '')` from pixel.js: split the dotted path
and walk the object graph. -/
def get (o : JSVal) (path : String) (defaultValue : JSVal := .str "") :
    Except String JSVal :=
  getLoop defaultValue (jsSplit path '.') o

/-- Pure counterpart of `getLoop` (the guard makes the throwing branch of
`index` unreachable, see `getLoop_eq_ok`). -/
def getLoop' (defaultValue : JSVal) : List String → JSVal → JSVal
  | [], result => if result.isUndefined then defaultValue else result
  | key :: keys, result =>
      if result.isNull || result.isUndefined then defaultValue
      else getLoop' defaultValue keys (result.index' key)

/-- Pure counterpart of `get`. -/
def get' (o : JSVal) (path : String) (defaultValue : JSVal := .str "") : JSVal :=
  getLoop' defaultValue (jsSplit path '.') o

theorem getLoop_eq_ok (d : JSVal) (ks : List String) (r : JSVal) :
    getLoop d ks r = .ok (getLoop' d ks r) := by
  induction ks generalizing r with
  | nil => rfl
  | cons k ks ih =>
    by_cases h : (r.isNull || r.isUndefined) = true
    · simp [getLoop, getLoop', h]
    · have hidx : r.index k = .ok (r.index' k) := by
        cases r <;> simp_all [JSVal.isNull, JSVal.isUndefined, JSVal.index]
      simp [getLoop, getLoop', h, hidx, ih]
      rfl

theorem get_eq_ok (o : JSVal) (path : String) (d : JSVal) :
    get o path d = .ok (get' o path d) := getLoop_eq_ok d _ o

-- ### The fixed sheet schema (pixel.js lines 22-35)

def SHEET_HEADERS : List String := [
  "PixelID", "HemSha256", "EventTimestamp", "EventType", "IPAddress",
  "ActivityStartDate", "ActivityEndDate", "ReferrerURL", "UUID",
  "FIRST_NAME", "LAST_NAME", "PERSONAL_ADDRESS", "PERSONAL_CITY",
  "PERSONAL_STATE", "PERSONAL_ZIP", "PERSONAL_ZIP4", "AGE_RANGE", "CHILDREN",
  "GENDER", "HOMEOWNER", "MARRIED", "NET_WORTH", "INCOME_RANGE",
  "DIRECT_NUMBER", "DIRECT_NUMBER_DNC", "MOBILE_PHONE", "MOBILE_PHONE_DNC",
  "PERSONAL_PHONE", "PERSONAL_PHONE_DNC", "BUSINESS_EMAIL", "PERSONAL_EMAILS",
  "DEEP_VERIFIED_EMAILS", "SHA256_PERSONAL_EMAIL", "SHA256_BUSINESS_EMAIL",
  "JOB_TITLE", "HEADLINE", "DEPARTMENT", "SENIORITY_LEVEL",
  "INFERRED_YEARS_EXPERIENCE", "COMPANY_NAME_HISTORY", "JOB_TITLE_HISTORY",
  "EDUCATION_HISTORY", "COMPANY_ADDRESS", "COMPANY_DESCRIPTION",
  "COMPANY_DOMAIN", "COMPANY_EMPLOYEE_COUNT", "COMPANY_LINKEDIN_URL",
  "COMPANY_NAME", "COMPANY_PHONE", "COMPANY_REVENUE", "COMPANY_SIC",
  "COMPANY_NAICS", "COMPANY_CITY", "COMPANY_STATE", "COMPANY_ZIP",
  "COMPANY_INDUSTRY", "LINKEDIN_URL", "TWITTER_URL", "FACEBOOK_URL",
  "SOCIAL_CONNECTIONS", "SKILLS", "INTERESTS", "SKIPTRACE_MATCH_SCORE",
  "SKIPTRACE_NAME", "SKIPTRACE_ADDRESS", "SKIPTRACE_CITY", "SKIPTRACE_STATE",
  "SKIPTRACE_ZIP", "SKIPTRACE_LANDLINE_NUMBERS", "SKIPTRACE_WIRELESS_NUMBERS",
  "SKIPTRACE_CREDIT_RATING", "SKIPTRACE_DNC", "SKIPTRACE_EXACT_AGE",
  "SKIPTRACE_ETHNIC_CODE", "SKIPTRACE_LANGUAGE_CODE", "SKIPTRACE_IP",
  "SKIPTRACE_B2B_ADDRESS", "SKIPTRACE_B2B_PHONE", "SKIPTRACE_B2B_SOURCE",
  "SKIPTRACE_B2B_WEBSITE"]

-- ### Cell formatting and the logData row (pixel.js lines 146-151, 158-242)

/-- `formatSheetCell` (pixel.js lines 146-151): a string whose trimmed form
starts with `+` gets an apostrophe prepended (to the untrimmed value); every
other value is returned unchanged. -/
def formatSheetCell : JSVal → JSVal
  | .str s => if startsWithPlus (jsTrim s) then .str ("'" ++ s) else .str s
  | v => v

/-- Which object each `logData` entry reads from, and at which path: the first
eight headers come from the event itself (snake_case paths), every other
header is read from the event's `resolution` sub-object at the path equal to
the header name (pixel.js lines 158-239 list one `get` per header; the key set
of the `logData` literal is exactly `SHEET_HEADERS`). -/
def headerSourcePath (h : String) : Bool × String :=
  match h with
  | "PixelID" => (true, "pixel_id")
  | "HemSha256" => (true, "hem_sha256")
  | "EventTimestamp" => (true, "event_timestamp")
  | "EventType" => (true, "event_type")
  | "IPAddress" => (true, "ip_address")
  | "ActivityStartDate" => (true, "activity_start_date")
  | "ActivityEndDate" => (true, "activity_end_date")
  | "ReferrerURL" => (true, "referrer_url")
  | h => (false, h)

/-- The three `logData` entries wrapped in `formatSheetCell` (pixel.js lines
182, 184, 186). -/
def isPhoneHeader (h : String) : Bool :=
  h = "DIRECT_NUMBER" || h = "MOBILE_PHONE" || h = "PERSONAL_PHONE"

/-- The raw `get` call behind a `logData` entry, before formatting. -/
def rawField (event resolution : JSVal) (h : String) : Except String JSVal :=
  get (if (headerSourcePath h).1 then event else resolution) (headerSourcePath h).2

/-- Pure counterpart of `rawField`. -/
def rawField' (event resolution : JSVal) (h : String) : JSVal :=
  get' (if (headerSourcePath h).1 then event else resolution) (headerSourcePath h).2

/-- One `logData` entry (pixel.js lines 158-239): the raw extraction, wrapped
in `formatSheetCell` for the three phone headers. -/
def logDataEntry (event resolution : JSVal) (h : String) : Except String JSVal :=
  if isPhoneHeader h then formatSheetCell <$> rawField event resolution h
  else rawField event resolution h

/-- Pure counterpart of `logDataEntry`. -/
def logDataEntry' (event resolution : JSVal) (h : String) : JSVal :=
  if isPhoneHeader h then formatSheetCell (rawField' event resolution h)
  else rawField' event resolution h

/-- `const newRow = SHEET_HEADERS.map(header => logData[header] || '')`
(pixel.js line 241): falsy entries become the empty string. -/
def newRow (event resolution : JSVal) : Except String (List JSVal) :=
  SHEET_HEADERS.mapM (fun h => do
    let v ← logDataEntry event resolution h
    pure (if v.truthy then v else .str ""))

/-- Pure counterpart of `newRow`. -/
def newRow' (event resolution : JSVal) : List JSVal :=
  SHEET_HEADERS.map (fun h =>
    let v := logDataEntry' event resolution h
    if v.truthy then v else .str "")

theorem rawField_eq_ok (event resolution : JSVal) (h : String) :
    rawField event resolution h = .ok (rawField' event resolution h) := by
  simp [rawField, rawField', get_eq_ok]

theorem logDataEntry_eq_ok (event resolution : JSVal) (h : String) :
    logDataEntry event resolution h = .ok (logDataEntry' event resolution h) := by
  by_cases hp : isPhoneHeader h <;>
    simp [logDataEntry, logDataEntry', hp, rawField_eq_ok, Except.map]

theorem mapM_except_eq_map {α β ε : Type} (f : α → Except ε β) (g : α → β)
    (hfg : ∀ a, f a = .ok (g a)) (l : List α) : l.mapM f = .ok (l.map g) := by
  induction l with
  | nil => rfl
  | cons a l ih =>
    rw [List.mapM_cons, hfg, ih]
    rfl

theorem newRow_eq_ok (event resolution : JSVal) :
    newRow event resolution = .ok (newRow' event resolution) := by
  refine mapM_except_eq_map _ _ (fun h => ?_) SHEET_HEADERS
  simp [logDataEntry_eq_ok]

-- ### GoHighLevel CRM model (pixel.js lines 74-122, 244-278)

/-- A CRM contact as returned by the lookup API; only its `id` is used. -/
structure Contact where
  id : String

/-- Outcome of the CRM lookup HTTP call: a successful response carrying a
(possibly empty) contact list, an HTTP error response with a status code, or
a network-level failure with no response. -/
inductive LookupOutcome where
  | success (contacts : List Contact)
  | httpError (status : Nat)
  | networkError

/-- Outcome of the CRM create-contact HTTP call. -/
inductive CreateOutcome where
  | success (c : Contact)
  | failure

/-- The body of the `POST /contacts/` call (pixel.js lines 264-273). -/
structure NewContactData where
  firstName : JSVal
  lastName : JSVal
  email : String
  phone : String
  source : String
  customField : List (String × JSVal)

/-- Environment: presence of the two configurations and the behaviour of the
external CRM endpoints for this request.  `noteOk` records whether the
note-append call succeeds; its outcome is only logged, never used. -/
structure Env where
  ghlApiKeyPresent : Bool
  sheetConfigured : Bool
  lookup : String → String → LookupOutcome
  create : NewContactData → CreateOutcome
  noteOk : String → String → Bool

/-- One outbound sink call, as observed on the wire. -/
inductive SinkCall where
  | sheetAppend (rows : List (List JSVal))
  | crmLookup (email phone : String)
  | crmCreate (data : NewContactData)
  | crmNote (contactId note : String)

def isSheetAppend : SinkCall → Bool
  | .sheetAppend _ => true
  | _ => false

/-- `findGHLContact` (pixel.js lines 74-94): skipped without an API key or
when both identifiers are empty; any error (HTTP or network) is caught and
yields `null`, indistinguishable from an empty match list.  Returns the calls
made and the contact found. -/
def findGHLContact (env : Env) (email phone : String) :
    List SinkCall × Option Contact :=
  if !env.ghlApiKeyPresent then ([], none)
  else if email == "" && phone == "" then ([], none)
  else
    ([SinkCall.crmLookup email phone],
     match env.lookup email phone with
     | .success contacts => contacts.head?
     | .httpError _ => none
     | .networkError => none)

/-- `createGHLContact` (pixel.js lines 97-109): skipped without an API key;
a failure is caught and yields `null`.  The caller ignores the result. -/
def createGHLContact (env : Env) (data : NewContactData) :
    List SinkCall × Option Contact :=
  if !env.ghlApiKeyPresent then ([], none)
  else
    ([SinkCall.crmCreate data],
     match env.create data with
     | .success c => some c
     | .failure => none)

/-- `addGHLNote` (pixel.js lines 112-122): skipped without an API key; a
failure is caught and only logged. -/
def addGHLNote (env : Env) (contactId note : String) : List SinkCall :=
  if !env.ghlApiKeyPresent then [] else [SinkCall.crmNote contactId note]

/-- The activity note template (pixel.js line 260). -/
def mkNote (event : JSVal) : Except String String := do
  let eventType ← get event "event_type"
  let url ← get event "event_data.url" (.str "N/A")
  let ts ← get event "event_timestamp"
  pure ("Website activity detected. Event: " ++ eventType.toJSString ++
    ". URL: " ++ url.toJSString ++ ". Timestamp: " ++ ts.toJSString)

/-- Pure counterpart of `mkNote`. -/
def mkNote' (event : JSVal) : String :=
  "Website activity detected. Event: " ++ (get' event "event_type").toJSString ++
    ". URL: " ++ (get' event "event_data.url" (.str "N/A")).toJSString ++
    ". Timestamp: " ++ (get' event "event_timestamp").toJSString

theorem mkNote_eq_ok (event : JSVal) : mkNote event = .ok (mkNote' event) := by
  simp [mkNote, mkNote', get_eq_ok]; rfl

/-- The lead fields derived per event (pixel.js lines 245-251): names without
any trimming, the first comma-separated entry of `PERSONAL_EMAILS` trimmed,
and the first comma-separated entry of `MOBILE_PHONE` trimmed and stripped to
digits.  `.split` throws on a non-string value. -/
def leadFields (resolution : JSVal) :
    Except String (JSVal × JSVal × String × String) := do
  let firstName ← get resolution "FIRST_NAME"
  let lastName ← get resolution "LAST_NAME"
  let emailParts ← (← get resolution "PERSONAL_EMAILS" (.str "")).splitComma
  let email := jsTrim (emailParts.getD 0 "")
  let phoneParts ← (← get resolution "MOBILE_PHONE" (.str "")).splitComma
  let rawPhone := jsTrim (phoneParts.getD 0 "")
  let sanitizedPhone := String.mk (rawPhone.toList.filter Char.isDigit)
  pure (firstName, lastName, email, sanitizedPhone)

/-- The qualification test `firstName && lastName && (email || sanitizedPhone)`
(pixel.js line 254). -/
def qualifies (firstName lastName : JSVal) (email sanitizedPhone : String) : Bool :=
  firstName.truthy && lastName.truthy &&
    (email != "" || sanitizedPhone != "")

/-- The per-event CRM block (pixel.js lines 244-278): derive the lead fields,
and if qualified, look the contact up and either add a note (match found) or
create a new contact (no match, including any swallowed lookup failure). -/
def crmForEvent (env : Env) (event resolution : JSVal) :
    Except String (List SinkCall) := do
  let (firstName, lastName, email, sanitizedPhone) ← leadFields resolution
  if qualifies firstName lastName email sanitizedPhone then
    let (lookupCalls, existingContact) := findGHLContact env email sanitizedPhone
    match existingContact with
    | some c => do
        let note ← mkNote event
        pure (lookupCalls ++ addGHLNote env c.id note)
    | none =>
        pure (lookupCalls ++ (createGHLContact env
          { firstName := firstName, lastName := lastName, email := email,
            phone := sanitizedPhone, source := "Pixel Tracker Webhook",
            customField := [] }).1)
  else
    pure []

/-- The per-event body of the `for...of` loop (pixel.js lines 155-279): build
the row, then run the CRM block; returns accumulated rows and CRM calls. -/
def processEvents (env : Env) : List JSVal →
    Except String (List (List JSVal) × List SinkCall)
  | [] => .ok ([], [])
  | e :: es => do
      let resolutionRaw ← e.index "resolution"
      let resolution := if resolutionRaw.truthy then resolutionRaw else .obj []
      let row ← newRow e resolution
      let crmCalls ← crmForEvent env e resolution
      let (rows, calls) ← processEvents env es
      pure (row :: rows, crmCalls ++ calls)

/-- `appendToSheet` (pixel.js lines 44-71): skipped when unconfigured or when
the batch is empty; an API failure is caught and only logged, so the observable
behaviour is just whether the append call is made. -/
def appendToSheet (env : Env) (rows : List (List JSVal)) : List SinkCall :=
  if !env.sheetConfigured then []
  else if rows.length = 0 then []
  else [SinkCall.sheetAppend rows]

structure Response where
  status : Nat
  body : String

/-- The strict-equality test `events.length === 0` (pixel.js line 131). -/
def isZeroLength : JSVal → Bool
  | .num 0 => true
  | _ => false

/-- `handleRequest` (pixel.js lines 126-283): default a falsy `events` field
to `[]`, answer 204 immediately when `events.length === 0`, otherwise iterate
the events, batch-append the rows and answer 204. -/
def handleRequest (env : Env) (payload : JSVal) :
    Except String (Response × List SinkCall) := do
  let eventsField ← payload.index "events"
  let events := if eventsField.truthy then eventsField else .arr []
  let lengthVal ← events.index "length"
  if isZeroLength lengthVal then
    pure ({ status := 204, body := "" }, [])
  else do
    let eventList ← events.iterate
    let (rowsToLog, crmCalls) ← processEvents env eventList
    let sheetCalls := appendToSheet env rowsToLog
    pure ({ status := 204, body := "" }, crmCalls ++ sheetCalls)

-- ### Free-form variant (src/unnamed/part_000)

/-- JSON string escaping for `JSON.stringify` (quote, backslash and the
common control characters). -/
def jsonEscapeChar (c : Char) : String :=
  if c = '"' then "\\\""
  else if c = '\\' then "\\\\"
  else if c = '\n' then "\\n"
  else if c = '\r' then "\\r"
  else if c = '\t' then "\\t"
  else String.mk [c]

def jsonQuote (s : String) : String :=
  "\"" ++ String.join (s.toList.map jsonEscapeChar) ++ "\""

mutual

/-- `JSON.stringify`: `undefined` has no JSON representation (`none`); inside
arrays it serialises as `null`, inside objects the member is dropped. -/
def jsonStringify : JSVal → Option String
  | .undefined => none
  | .null => some "null"
  | .bool b => some (cond b "true" "false")
  | .num n => some (toString n)
  | .str s => some (jsonQuote s)
  | .arr es => some ("[" ++ String.intercalate "," (jsonArrayItems es) ++ "]")
  | .obj fs => some ("\x7b" ++ String.intercalate "," (jsonObjMembers fs) ++ "\x7d")

def jsonArrayItems : List JSVal → List String
  | [] => []
  | v :: rest => (jsonStringify v).getD "null" :: jsonArrayItems rest

def jsonObjMembers : List (String × JSVal) → List String
  | [] => []
  | (k, v) :: rest =>
      match jsonStringify v with
      | none => jsonObjMembers rest
      | some sv => (jsonQuote k ++ ":" ++ sv) :: jsonObjMembers rest

end

/-- The object spread `{ ...base, ...extra }` (part_000 line 63): base keys
keep their position but an extra value wins on collision; extra-only keys are
appended in order.  Keys are unique within each operand. -/
def spreadMerge (base extra : List (String × JSVal)) :
    List (String × JSVal) :=
  base.map (fun kv =>
    match List.lookup kv.1 extra with
    | some v => (kv.1, v)
    | none => kv)
  ++ extra.filter (fun kv => (List.lookup kv.1 base).isNone)

/-- Environment of the free-form variant: sheet configuration and the value
of `new Date().toISOString()`. -/
structure FreeFormEnv where
  sheetConfigured : Bool
  nowIso : String

/-- The free-form `appendToSheet` (part_000 lines 27-54): logs one row,
skipped when unconfigured; an API failure is caught and only logged. -/
def appendToSheetSingle (env : FreeFormEnv) (logData : List JSVal) :
    List SinkCall :=
  if !env.sheetConfigured then [] else [SinkCall.sheetAppend [logData]]

/-- The free-form `handleRequest` (part_000 lines 59-90): merge query and
body (body wins), log `[timestamp, allData.event || 'PixelEvent',
JSON.stringify(allData)]`, answer 204. -/
def handleRequestFreeForm (env : FreeFormEnv)
    (query body : List (String × JSVal)) : Response × List SinkCall :=
  let allData := spreadMerge query body
  let eventField := (List.lookup "event" allData).getD JSVal.undefined
  let eventName := if eventField.truthy then eventField else JSVal.str "PixelEvent"
  let fullDataString := (jsonStringify (JSVal.obj allData)).getD "null"
  let logRow := [JSVal.str env.nowIso, eventName, JSVal.str fullDataString]
  ({ status := 204, body := "" }, appendToSheetSingle env logRow)

-- ### Concrete sample inputs used by witnesses and counterexamples

/-- The resolution object of the spec's worked example. -/
def janeResolution : JSVal := .obj [
  ("FIRST_NAME", .str "Jane"), ("LAST_NAME", .str "Doe"),
  ("PERSONAL_EMAILS", .str "j@x.com,other@x.com"),
  ("MOBILE_PHONE", .str "+1 (555) 123-4567")]

def janeEvent : JSVal := .obj [("resolution", janeResolution)]

def janePayload : JSVal := .obj [("events", .arr [janeEvent])]

/-- The create call the Jane Doe event produces. -/
def janeContactData : NewContactData :=
  { firstName := .str "Jane", lastName := .str "Doe", email := "j@x.com",
    phone := "15551234567", source := "Pixel Tracker Webhook",
    customField := [] }

/-- A resolution object whose first name is whitespace only. -/
def whitespaceResolution : JSVal := .obj [
  ("FIRST_NAME", .str " "), ("LAST_NAME", .str "Doe"),
  ("PERSONAL_EMAILS", .str "j@x.com")]

/-- The create call the whitespace-name event produces. -/
def whitespaceContactData : NewContactData :=
  { firstName := .str " ", lastName := .str "Doe", email := "j@x.com",
    phone := "", source := "Pixel Tracker Webhook", customField := [] }

/-- A baseline environment: CRM key present, sheet unconfigured, lookup finds
no contact, create fails, note fails. -/
def envProbe : Env :=
  { ghlApiKeyPresent := true, sheetConfigured := false,
    lookup := fun _ _ => .success [], create := fun _ => .failure,
    noteOk := fun _ _ => false }

/-- Like `envProbe` but the CRM lookup raises a simulated network failure. -/
def envFailingLookup : Env :=
  { envProbe with lookup := fun _ _ => .networkError }

/-- Like `envProbe` but the CRM lookup finds an existing contact. -/
def envFoundContact : Env :=
  { envProbe with
    lookup := (fun _ _ => .success [⟨"contact-1"⟩]),
    noteOk := (fun _ _ => true) }

-- ### Helper lemmas

theorem except_bind_ok {α β ε : Type} (a : α) (f : α → Except ε β) :
    (Except.ok a >>= f) = f a := rfl

theorem except_bind_error {α β ε : Type} (e : ε) (f : α → Except ε β) :
    ((Except.error e : Except ε α) >>= f) = Except.error e := rfl

theorem append_marker_ne_empty (s : String) : ("'" ++ s) ≠ "" := by
  intro h
  have hd : ("'" ++ s).data = "".data := congrArg String.data h
  rw [String.data_append] at hd
  exact List.noConfusion hd

/-- `formatSheetCell` preserves JS truthiness (it never turns a truthy value
falsy or vice versa). -/
theorem formatSheetCell_truthy (v : JSVal) :
    (formatSheetCell v).truthy = v.truthy := by
  cases v <;> try rfl
  case str s =>
    by_cases h : startsWithPlus (jsTrim s) = true
    · have hs : s ≠ "" := by
        intro he
        subst he
        exact absurd h (by decide)
      simp only [formatSheetCell, h, if_true, JSVal.truthy]
      have h1 : ("'" ++ s != "") = true := by
        simp [bne_iff_ne, append_marker_ne_empty s]
      have h2 : (s != "") = true := by simp [bne_iff_ne, hs]
      rw [h1, h2]
    · simp [formatSheetCell, h]

/-- A truthy value is neither `null` nor `undefined`. -/
theorem truthy_not_null_undef (v : JSVal) (h : v.truthy = true) :
    v.isNull = false ∧ v.isUndefined = false := by
  cases v <;> simp_all [JSVal.truthy, JSVal.isNull, JSVal.isUndefined]

/-- Reading the projected row at a schema index. -/
theorem newRow'_getD (event resolution : JSVal) (i : Nat)
    (hi : i < SHEET_HEADERS.length) :
    (newRow' event resolution).getD i .undefined =
      (if (logDataEntry' event resolution (SHEET_HEADERS.getD i "")).truthy then
        logDataEntry' event resolution (SHEET_HEADERS.getD i "")
       else .str "") := by
  unfold newRow'
  rw [List.getD_eq_getElem _ _ (by simpa using hi), List.getElem_map,
    List.getD_eq_getElem _ _ hi]

theorem findGHLContact_calls_no_sheet (env : Env) (e p : String) :
    ((findGHLContact env e p).1).filter isSheetAppend = [] := by
  unfold findGHLContact
  split_ifs <;> rfl

theorem createGHLContact_calls_no_sheet (env : Env) (data : NewContactData) :
    ((createGHLContact env data).1).filter isSheetAppend = [] := by
  unfold createGHLContact
  split_ifs <;> rfl

theorem addGHLNote_calls_no_sheet (env : Env) (cid note : String) :
    (addGHLNote env cid note).filter isSheetAppend = [] := by
  unfold addGHLNote
  split_ifs <;> rfl

theorem crmForEvent_error (env : Env) (event resolution : JSVal) (m : String)
    (h : leadFields resolution = .error m) :
    crmForEvent env event resolution = .error m := by
  unfold crmForEvent
  rw [h]
  rfl

theorem crmForEvent_ok (env : Env) (event resolution : JSVal)
    (q : JSVal × JSVal × String × String)
    (h : leadFields resolution = .ok q) :
    ∃ cs, crmForEvent env event resolution = .ok cs ∧
      cs.filter isSheetAppend = [] := by
  obtain ⟨f, l, em, ph⟩ := q
  have hmk := mkNote_eq_ok event
  rcases hfe : findGHLContact env em ph with ⟨lk, ex⟩
  have hlk : lk.filter isSheetAppend = [] := by
    have hcall := findGHLContact_calls_no_sheet env em ph
    rw [hfe] at hcall
    exact hcall
  unfold crmForEvent
  rw [h]
  by_cases hq : qualifies f l em ph = true
  · cases ex with
    | some c =>
        refine ⟨lk ++ addGHLNote env c.id (mkNote' event), ?_, ?_⟩
        · simp [hq, hfe, hmk, bind, Except.bind]
          rfl
        · rw [List.filter_append, hlk, addGHLNote_calls_no_sheet]
          rfl
    | none =>
        refine ⟨lk ++ (createGHLContact env
          { firstName := f, lastName := l, email := em, phone := ph,
            source := "Pixel Tracker Webhook", customField := [] }).1, ?_, ?_⟩
        · simp [hq, hfe, bind, Except.bind]
          rfl
        · rw [List.filter_append, hlk, createGHLContact_calls_no_sheet]
          rfl
  · exact ⟨[], by simp [hq, bind, Except.bind]; rfl, rfl⟩

/-- The rows produced by the event loop, and whether it throws, are
independent of the CRM environment; the loop emits no sheet calls itself. -/
theorem processEvents_agree (env₁ env₂ : Env) (evs : List JSVal) :
    (∃ m, processEvents env₁ evs = .error m ∧
      processEvents env₂ evs = .error m) ∨
    (∃ rows c₁ c₂, processEvents env₁ evs = .ok (rows, c₁) ∧
      processEvents env₂ evs = .ok (rows, c₂) ∧
      c₁.filter isSheetAppend = [] ∧ c₂.filter isSheetAppend = []) := by
  induction evs with
  | nil => exact Or.inr ⟨[], [], [], rfl, rfl, rfl, rfl⟩
  | cons e es ih =>
    cases hr : e.index "resolution" with
    | error m =>
        refine Or.inl ⟨m, ?_, ?_⟩ <;>
          simp [processEvents, hr, bind, Except.bind]
    | ok rv =>
        cases hl : leadFields (if rv.truthy then rv else JSVal.obj []) with
        | error m =>
            refine Or.inl ⟨m, ?_, ?_⟩ <;>
              simp [processEvents, hr, newRow_eq_ok,
                crmForEvent_error _ e _ m hl, bind, Except.bind]
        | ok q =>
            obtain ⟨c₁, hc₁, hf₁⟩ := crmForEvent_ok env₁ e _ q hl
            obtain ⟨c₂, hc₂, hf₂⟩ := crmForEvent_ok env₂ e _ q hl
            rcases ih with ⟨m, h₁, h₂⟩ | ⟨rows, d₁, d₂, h₁, h₂, g₁, g₂⟩
            · refine Or.inl ⟨m, ?_, ?_⟩
              · simp [processEvents, hr, newRow_eq_ok, hc₁, h₁, bind, Except.bind]
              · simp [processEvents, hr, newRow_eq_ok, hc₂, h₂, bind, Except.bind]
            · refine Or.inr ⟨newRow' e (if rv.truthy then rv else .obj []) :: rows,
                c₁ ++ d₁, c₂ ++ d₂, ?_, ?_, ?_, ?_⟩
              · simp [processEvents, hr, newRow_eq_ok, hc₁, h₁, bind, Except.bind]
                rfl
              · simp [processEvents, hr, newRow_eq_ok, hc₂, h₂, bind, Except.bind]
                rfl
              · rw [List.filter_append, hf₁, g₁]
                rfl
              · rw [List.filter_append, hf₂, g₂]
                rfl

/-- `appendToSheet` only reads the sheet configuration from the environment. -/
theorem appendToSheet_congr (env₁ env₂ : Env) (rows : List (List JSVal))
    (hs : env₁.sheetConfigured = env₂.sheetConfigured) :
    appendToSheet env₁ rows = appendToSheet env₂ rows := by
  unfold appendToSheet
  rw [hs]

theorem lookup_append (k : String) (xs ys : List (String × JSVal)) :
    List.lookup k (xs ++ ys) =
      (match List.lookup k xs with
       | some v => some v
       | none => List.lookup k ys) := by
  induction xs with
  | nil => rfl
  | cons x xs ih =>
    obtain ⟨a, b⟩ := x
    by_cases h : (k == a) = true
    · simp [List.lookup, h]
    · simp only [List.cons_append, List.lookup, Bool.not_eq_true] at *
      rw [h] at *
      simpa using ih

theorem lookup_map_override (k : String) (base extra : List (String × JSVal)) :
    List.lookup k (base.map (fun kv =>
      match List.lookup kv.1 extra with
      | some v => (kv.1, v)
      | none => kv)) =
    (match List.lookup k base with
     | some v => some ((List.lookup k extra).getD v)
     | none => none) := by
  induction base with
  | nil => rfl
  | cons x xs ih =>
    obtain ⟨a, b⟩ := x
    by_cases h : (k == a) = true
    · have hk : k = a := by simpa using h
      subst hk
      cases he : List.lookup k extra <;>
        simp [List.lookup, h, he]
    · have h' : (k == a) = false := by simpa using h
      cases he : List.lookup a extra with
      | none =>
          simp only [List.map_cons, he, List.lookup, h']
          exact ih
      | some v =>
          simp only [List.map_cons, he, List.lookup, h']
          exact ih

theorem lookup_filter_base_absent (k : String)
    (base extra : List (String × JSVal)) :
    List.lookup k (extra.filter (fun kv => (List.lookup kv.1 base).isNone)) =
      (if (List.lookup k base).isNone then List.lookup k extra else none) := by
  induction extra with
  | nil => simp
  | cons x xs ih =>
    obtain ⟨a, b⟩ := x
    by_cases h : (k == a) = true
    · have hk : k = a := by simpa using h
      subst hk
      by_cases hb : (List.lookup k base).isNone = true
      · simp [List.filter_cons, hb, List.lookup, h]
      · have hb' : (List.lookup k base).isNone = false := by
          simpa using hb
        simp [List.filter_cons, hb', List.lookup, ih]
    · have h' : (k == a) = false := by simpa using h
      have htail : List.lookup k ((a, b) :: xs) = List.lookup k xs := by
        simp [List.lookup, h']
      by_cases hb : (List.lookup a base).isNone = true
      · simp only [List.filter_cons, hb, if_true, List.lookup, h', htail]
        exact ih
      · have hb' : (List.lookup a base).isNone = false := by
          simpa using hb
        simp only [List.filter_cons, hb', Bool.false_eq_true, if_false, htail]
        exact ih

/-- The value-level semantics of the object spread: the extra operand wins on
every key collision. -/
theorem lookup_spreadMerge (k : String) (q b : List (String × JSVal)) :
    List.lookup k (spreadMerge q b) =
      (match List.lookup k b with
       | some v => some v
       | none => List.lookup k q) := by
  rw [spreadMerge, lookup_append, lookup_map_override, lookup_filter_base_absent]
  cases hq : List.lookup k q <;> cases hb : List.lookup k b <;> simp [hq, hb]

-- ### Claim theorems

/-- C1 (code bug): the claim says a malformed payload — `events` present but
not a list — is treated as zero events and answered with 204.  The code only
defaults a *falsy* `events`; a truthy non-list value such as `events: 5`
passes the `length === 0` test (its `length` is `undefined`) and then throws
`TypeError` at `for (const event of events)`, so the handler rejects instead
of returning 204. -/
theorem nonlist_events_throws :
    handleRequest envProbe (.obj [("events", .num 5)]) =
      .error "TypeError: events is not iterable" := rfl

/-- C2 counterexample: the claim says a path that reaches a null final value
returns the empty-string default, but `get` only replaces a final `undefined`;
`get({a: null}, "a")` returns `null` itself. -/
theorem get_final_null_returned :
    get (.obj [("a", .null)]) "a" = .ok .null ∧
    (Except.ok JSVal.null ≠ (.ok (.str "") : Except String JSVal)) := by
  refine ⟨rfl, fun h => ?_⟩
  injection h with h'
  exact JSVal.noConfusion h'

/-- C2 (amended): `get` never throws for any object and any dotted path; a
`null`/`undefined` value met *before* the path is exhausted short-circuits to
the default, and a final `undefined` is replaced by the default (a final
`null` is returned as is).  The spec's example `get({a:{b:null}}, "a.b.c")`
returns the empty string. -/
theorem get_never_throws_and_shortcircuits :
    (∀ (o : JSVal) (p : String) (d : JSVal), get o p d = .ok (get' o p d)) ∧
    (∀ (d : JSVal) (k : String) (ks : List String) (r : JSVal),
      (r.isNull || r.isUndefined) = true → getLoop d (k :: ks) r = .ok d) ∧
    (∀ (d r : JSVal), getLoop d [] r = .ok (if r.isUndefined then d else r)) ∧
    get (.obj [("a", .obj [("b", .null)])]) "a.b.c" = .ok (.str "") := by
  refine ⟨get_eq_ok, fun d k ks r h => ?_, fun d r => rfl, rfl⟩
  simp [getLoop, h]

theorem get_never_throws_witness :
    getLoop (.str "") ["b"] .null = .ok (.str "") :=
  get_never_throws_and_shortcircuits.2.1 (.str "") "b" [] .null rfl

/-- C3 counterexample: the claim requires first and last name to be non-empty
*after trimming*, but the code checks only JS truthiness; a whitespace-only
first name qualifies the lead and triggers the CRM sync. -/
theorem qualifies_whitespace_name :
    qualifies (.str " ") (.str "Doe") "j@x.com" "" = true ∧
    jsTrim " " = "" ∧
    leadFields whitespaceResolution =
      .ok (.str " ", .str "Doe", "j@x.com", "") ∧
    crmForEvent envProbe (.obj []) whitespaceResolution =
      .ok [.crmLookup "j@x.com" "", .crmCreate whitespaceContactData] :=
  ⟨rfl, rfl, rfl, rfl⟩

/-- C3 (amended): for string-valued resolution fields the derived lead data
is the untrimmed first and last name, the trimmed first comma-separated entry
of PERSONAL_EMAILS, and the digits of the trimmed first comma-separated entry
of MOBILE_PHONE; the predicate holds exactly when both names are truthy (no
trimming) and email or sanitized phone is non-empty.  On the spec's Jane Doe
example the predicate is true and the CRM lookup uses `j@x.com` and
`15551234567`. -/
theorem qualification_predicate :
    (∀ fn ln pe mp : String,
      leadFields (.obj [("FIRST_NAME", .str fn), ("LAST_NAME", .str ln),
          ("PERSONAL_EMAILS", .str pe), ("MOBILE_PHONE", .str mp)]) =
        .ok (.str fn, .str ln, jsTrim ((jsSplit pe ',').getD 0 ""),
          String.mk ((jsTrim ((jsSplit mp ',').getD 0 "")).toList.filter
            Char.isDigit))) ∧
    (∀ (fn ln : JSVal) (e p : String),
      qualifies fn ln e p = true ↔
        (fn.truthy = true ∧ ln.truthy = true ∧ (e ≠ "" ∨ p ≠ ""))) ∧
    leadFields janeResolution =
      .ok (.str "Jane", .str "Doe", "j@x.com", "15551234567") ∧
    crmForEvent envProbe janeEvent janeResolution =
      .ok [.crmLookup "j@x.com" "15551234567", .crmCreate janeContactData] := by
  refine ⟨fun fn ln pe mp => rfl, fun fn ln e p => ?_, rfl, rfl⟩
  simp [qualifies, Bool.and_eq_true, Bool.or_eq_true, bne_iff_ne, and_assoc]

theorem qualification_predicate_witness :
    qualifies (.str "Jane") (.str "Doe") "j@x.com" "15551234567" = true :=
  (qualification_predicate.2.1 (.str "Jane") (.str "Doe") "j@x.com"
    "15551234567").mpr ⟨rfl, rfl, Or.inl (by decide)⟩

/-- C4 counterexample: the claim says every `+`-leading value in the
projected row is escaped, but `formatSheetCell` is applied only to the three
phone columns; a `+`-leading COMPANY_PHONE value (schema index 48) is placed
unchanged, without the escape marker. -/
theorem company_phone_not_escaped :
    (newRow' (.obj []) (.obj [("COMPANY_PHONE", .str "+123")])).getD 48 .undefined
        = .str "+123" ∧
    SHEET_HEADERS.getD 48 "" = "COMPANY_PHONE" ∧
    startsWithPlus "+123" = true ∧
    (JSVal.str "+123" ≠ .str ("'" ++ "+123")) := by
  refine ⟨rfl, rfl, rfl, fun h => ?_⟩
  injection h with h'
  exact absurd h' (by decide)

/-- C4 (amended): the escape is applied exactly in the DIRECT_NUMBER,
MOBILE_PHONE and PERSONAL_PHONE columns, and it tests the *trimmed* value: a
string whose trimmed form begins with `+` gets an apostrophe prepended to the
untrimmed value; every other string, every non-string, and every other column
is placed unchanged (before the falsy-to-empty-string substitution). -/
theorem escape_only_phone_columns :
    (∀ s : String, startsWithPlus (jsTrim s) = true →
        formatSheetCell (.str s) = .str ("'" ++ s)) ∧
    (∀ s : String, startsWithPlus (jsTrim s) = false →
        formatSheetCell (.str s) = .str s) ∧
    (∀ v : JSVal, (∀ s, v ≠ .str s) → formatSheetCell v = v) ∧
    (∀ (event resolution : JSVal) (h : String), isPhoneHeader h = true →
        logDataEntry' event resolution h =
          formatSheetCell (rawField' event resolution h)) ∧
    (∀ (event resolution : JSVal) (h : String), isPhoneHeader h = false →
        logDataEntry' event resolution h = rawField' event resolution h) := by
  refine ⟨fun s h => ?_, fun s h => ?_, fun v h => ?_,
    fun e r h hp => ?_, fun e r h hp => ?_⟩
  · simp [formatSheetCell, h]
  · simp [formatSheetCell, h]
  · cases v <;> first | rfl | exact absurd rfl (h _)
  · simp [logDataEntry', hp]
  · simp [logDataEntry', hp]

theorem escape_only_phone_columns_witness :
    formatSheetCell (.str " +1 (555)") = .str ("'" ++ " +1 (555)") ∧
    logDataEntry' janeEvent janeResolution "MOBILE_PHONE" =
      formatSheetCell (rawField' janeEvent janeResolution "MOBILE_PHONE") :=
  ⟨escape_only_phone_columns.1 " +1 (555)" rfl,
   escape_only_phone_columns.2.2.2.1 janeEvent janeResolution "MOBILE_PHONE" rfl⟩

/-- C5: the projected row is one value per schema column in schema order,
never `null` or `undefined` in any entry, and every column whose raw
extracted value is falsy (including missing values, which extract to the
empty-string default) carries the empty string. -/
theorem sheet_row_rectangular (event resolution : JSVal) :
    newRow event resolution = .ok (newRow' event resolution) ∧
    (newRow' event resolution).length = SHEET_HEADERS.length ∧
    ∀ i, i < SHEET_HEADERS.length →
      ((newRow' event resolution).getD i .undefined).isNull = false ∧
      ((newRow' event resolution).getD i .undefined).isUndefined = false ∧
      ((rawField' event resolution (SHEET_HEADERS.getD i "")).truthy = false →
        (newRow' event resolution).getD i .undefined = .str "") := by
  refine ⟨newRow_eq_ok event resolution, by simp [newRow'], fun i hi => ?_⟩
  rw [newRow'_getD event resolution i hi]
  by_cases ht : (logDataEntry' event resolution (SHEET_HEADERS.getD i "")).truthy = true
  · obtain ⟨h1, h2⟩ := truthy_not_null_undef _ ht
    refine ⟨?_, ?_, fun hraw => ?_⟩
    · rw [if_pos ht]; exact h1
    · rw [if_pos ht]; exact h2
    · exfalso
      have hfalse : (logDataEntry' event resolution (SHEET_HEADERS.getD i "")).truthy
          = false := by
        unfold logDataEntry'
        by_cases hp : isPhoneHeader (SHEET_HEADERS.getD i "") = true
        · rw [if_pos hp, formatSheetCell_truthy]; exact hraw
        · rw [if_neg hp]; exact hraw
      rw [ht] at hfalse
      exact Bool.noConfusion hfalse
  · exact ⟨by rw [if_neg ht]; rfl, by rw [if_neg ht]; rfl,
      fun _ => by rw [if_neg ht]⟩

theorem sheet_row_rectangular_witness :
    ((newRow' janeEvent janeResolution).getD 9 .undefined).isNull = false :=
  ((sheet_row_rectangular janeEvent janeResolution).2.2 9 (by decide)).1

/-- C6: reading the projected row at a populated column's schema index
recovers the raw extracted value, except in a phone column whose string value
trim-starts with `+`, where the row holds the value with the apostrophe
marker prepended — and the marker is strippable: the entry's character data
is the marker followed by exactly the original characters. -/
theorem row_projection_roundtrip (event resolution : JSVal) (i : Nat)
    (hi : i < SHEET_HEADERS.length)
    (hv : (rawField' event resolution (SHEET_HEADERS.getD i "")).truthy = true) :
    (newRow' event resolution).getD i .undefined
        = rawField' event resolution (SHEET_HEADERS.getD i "") ∨
    (isPhoneHeader (SHEET_HEADERS.getD i "") = true ∧
      ∃ s : String,
        rawField' event resolution (SHEET_HEADERS.getD i "") = .str s ∧
        startsWithPlus (jsTrim s) = true ∧
        (newRow' event resolution).getD i .undefined = .str ("'" ++ s) ∧
        ("'" ++ s).data.tail = s.data) := by
  obtain ⟨w, hze⟩ : ∃ w, rawField' event resolution (SHEET_HEADERS.getD i "") = w :=
    ⟨_, rfl⟩
  rw [hze] at hv ⊢
  rw [newRow'_getD event resolution i hi]
  by_cases hp : isPhoneHeader (SHEET_HEADERS.getD i "") = true
  · have hld : logDataEntry' event resolution (SHEET_HEADERS.getD i "")
        = formatSheetCell w := by
      unfold logDataEntry'
      rw [if_pos hp, hze]
    cases w with
    | str s =>
      by_cases hplus : startsWithPlus (jsTrim s) = true
      · right
        refine ⟨hp, s, rfl, hplus, ?_, ?_⟩
        · have hfmt : formatSheetCell (.str s) = .str ("'" ++ s) := by
            simp [formatSheetCell, hplus]
          have htr : (JSVal.str ("'" ++ s)).truthy = true := by
            simp [JSVal.truthy, bne_iff_ne, append_marker_ne_empty s]
          rw [hld, hfmt]
          simp [htr]
        · rw [String.data_append]
          rfl
      · left
        have hfmt : formatSheetCell (.str s) = .str s := by
          simp [formatSheetCell, hplus]
        rw [hld, hfmt]
        simp [hv]
    | undefined => exact absurd hv (by simp [JSVal.truthy])
    | null => exact absurd hv (by simp [JSVal.truthy])
    | bool b => left; rw [hld]; simp [formatSheetCell, hv]
    | num n => left; rw [hld]; simp [formatSheetCell, hv]
    | obj fs => left; rw [hld]; simp [formatSheetCell, hv]
    | arr es => left; rw [hld]; simp [formatSheetCell, hv]
  · left
    have hld : logDataEntry' event resolution (SHEET_HEADERS.getD i "") = w := by
      unfold logDataEntry'
      rw [if_neg hp, hze]
    rw [hld, if_pos hv]

theorem row_projection_roundtrip_witness :
    (newRow' janeEvent janeResolution).getD 25 .undefined
        = rawField' janeEvent janeResolution (SHEET_HEADERS.getD 25 "") ∨
    (isPhoneHeader (SHEET_HEADERS.getD 25 "") = true ∧
      ∃ s : String,
        rawField' janeEvent janeResolution (SHEET_HEADERS.getD 25 "") = .str s ∧
        startsWithPlus (jsTrim s) = true ∧
        (newRow' janeEvent janeResolution).getD 25 .undefined = .str ("'" ++ s) ∧
        ("'" ++ s).data.tail = s.data) :=
  row_projection_roundtrip janeEvent janeResolution 25 (by decide) rfl

/-- C7: CRM failures are swallowed.  Any terminating run answers 204 with an
empty body, and replacing the CRM outcomes by any other outcomes (e.g. a
lookup network failure) leaves the response and the row-sink append calls
unchanged: every remaining event is still processed and the batch append
still happens. -/
theorem crm_failure_isolated (env₁ env₂ : Env) (payload : JSVal)
    (resp : Response) (calls : List SinkCall)
    (hs : env₁.sheetConfigured = env₂.sheetConfigured)
    (h : handleRequest env₁ payload = .ok (resp, calls)) :
    resp = { status := 204, body := "" } ∧
    ∃ calls₂, handleRequest env₂ payload = .ok (resp, calls₂) ∧
      calls₂.filter isSheetAppend = calls.filter isSheetAppend := by
  unfold handleRequest at h
  cases hev : payload.index "events" with
  | error m =>
      rw [hev, except_bind_error] at h
      exact absurd h (by simp)
  | ok ev =>
      rw [hev] at h
      simp only [except_bind_ok] at h
      cases hlen : (if ev.truthy then ev else JSVal.arr []).index "length" with
      | error m =>
          rw [hlen, except_bind_error] at h
          exact absurd h (by simp)
      | ok lengthVal =>
          rw [hlen] at h
          simp only [except_bind_ok] at h
          by_cases hz : isZeroLength lengthVal = true
          · rw [if_pos hz] at h
            injection h with h'
            rw [Prod.mk.injEq] at h'
            obtain ⟨hresp, hcalls⟩ := h'
            subst hresp
            subst hcalls
            refine ⟨rfl, [], ?_, rfl⟩
            unfold handleRequest
            rw [hev]
            simp only [except_bind_ok]
            rw [hlen]
            simp only [except_bind_ok]
            rw [if_pos hz]
            rfl
          · rw [if_neg hz] at h
            cases hit : (if ev.truthy then ev else JSVal.arr []).iterate with
            | error m =>
                rw [hit, except_bind_error] at h
                exact absurd h (by simp)
            | ok eventList =>
                rw [hit] at h
                simp only [except_bind_ok] at h
                rcases processEvents_agree env₁ env₂ eventList with
                  ⟨m, p₁, p₂⟩ | ⟨rows, c₁, c₂, p₁, p₂, f₁, f₂⟩
                · rw [p₁, except_bind_error] at h
                  exact absurd h (by simp)
                · rw [p₁] at h
                  simp only [except_bind_ok] at h
                  injection h with h'
                  rw [Prod.mk.injEq] at h'
                  obtain ⟨hresp, hcalls⟩ := h'
                  subst hresp
                  subst hcalls
                  refine ⟨rfl, c₂ ++ appendToSheet env₂ rows, ?_, ?_⟩
                  · unfold handleRequest
                    rw [hev]
                    simp only [except_bind_ok]
                    rw [hlen]
                    simp only [except_bind_ok]
                    rw [if_neg hz, hit]
                    simp only [except_bind_ok]
                    rw [p₂]
                    rfl
                  · rw [List.filter_append, List.filter_append, f₁, f₂,
                      appendToSheet_congr env₂ env₁ rows hs.symm]

theorem crm_failure_isolated_witness :
    ({ status := 204, body := "" } : Response) = { status := 204, body := "" } ∧
    ∃ calls₂, handleRequest envProbe janePayload =
      .ok (({ status := 204, body := "" } : Response), calls₂) ∧
      calls₂.filter isSheetAppend =
        ([SinkCall.crmLookup "j@x.com" "15551234567",
          SinkCall.crmCreate janeContactData]).filter isSheetAppend :=
  crm_failure_isolated envFailingLookup envProbe janePayload
    { status := 204, body := "" }
    [SinkCall.crmLookup "j@x.com" "15551234567",
      SinkCall.crmCreate janeContactData] rfl rfl

/-- C8: with an empty `events` list — or no `events` field at all — the
handler answers 204 immediately and makes no sink call whatsoever. -/
theorem empty_events_no_sink_calls (env : Env)
    (fields : List (String × JSVal)) :
    handleRequest env (.obj [("events", .arr [])]) =
      .ok ({ status := 204, body := "" }, []) ∧
    (List.lookup "events" fields = none →
      handleRequest env (.obj fields) =
        .ok ({ status := 204, body := "" }, [])) := by
  refine ⟨rfl, fun h => ?_⟩
  unfold handleRequest
  have hev : (JSVal.obj fields).index "events" = .ok .undefined := by
    simp [JSVal.index, JSVal.index', h]
  rw [hev]
  rfl

theorem empty_events_no_sink_calls_witness :
    handleRequest envProbe (.obj [("x", .str "y")]) =
      .ok ({ status := 204, body := "" }, []) :=
  (empty_events_no_sink_calls envProbe [("x", .str "y")]).2 rfl

/-- C9: the free-form variant answers 204 and logs one row whose record is
the spread merge of the query parameters and the body; on every key
collision the body's value wins (query parameters have lower precedence). -/
theorem freeform_merge_body_wins (env : FreeFormEnv)
    (query body : List (String × JSVal)) (k : String) :
    (handleRequestFreeForm env query body).1 = { status := 204, body := "" } ∧
    (handleRequestFreeForm env query body).2 =
      appendToSheetSingle env [JSVal.str env.nowIso,
        (if ((List.lookup "event" (spreadMerge query body)).getD .undefined).truthy
         then (List.lookup "event" (spreadMerge query body)).getD .undefined
         else JSVal.str "PixelEvent"),
        JSVal.str ((jsonStringify (.obj (spreadMerge query body))).getD "null")] ∧
    List.lookup k (spreadMerge query body) =
      (match List.lookup k body with
       | some v => some v
       | none => List.lookup k query) :=
  ⟨rfl, rfl, lookup_spreadMerge k query body⟩

theorem freeform_merge_body_wins_witness :
    List.lookup "event" (spreadMerge [("event", JSVal.str "fromQuery")]
        [("event", JSVal.str "fromBody")]) =
      (match List.lookup "event" [("event", JSVal.str "fromBody")] with
       | some v => some v
       | none => List.lookup "event" [("event", JSVal.str "fromQuery")]) :=
  (freeform_merge_body_wins { sheetConfigured := true, nowIso := "t" }
    [("event", JSVal.str "fromQuery")] [("event", JSVal.str "fromBody")]
    "event").2.2

/-- C10: when the CRM lookup fails with anything other than a successful
response — a network failure or any HTTP error status — `findGHLContact`
returns `none`, indistinguishable from "no existing contact", so a qualified
event creates a new contact instead of appending a note. -/
theorem lookup_failure_creates_contact (env : Env)
    (event resolution firstName lastName : JSVal) (email phone : String)
    (hkey : env.ghlApiKeyPresent = true)
    (hfail : env.lookup email phone = .networkError ∨
      ∃ st, env.lookup email phone = .httpError st)
    (hlead : leadFields resolution = .ok (firstName, lastName, email, phone))
    (hq : qualifies firstName lastName email phone = true) :
    (findGHLContact env email phone).2 = none ∧
    crmForEvent env event resolution =
      .ok [SinkCall.crmLookup email phone,
        SinkCall.crmCreate
          { firstName := firstName, lastName := lastName, email := email,
            phone := phone, source := "Pixel Tracker Webhook",
            customField := [] }] := by
  have hne : ((email == "") && (phone == "")) = false := by
    have hor : (email != "" || phone != "") = true := by
      have := hq
      unfold qualifies at this
      simp only [Bool.and_eq_true] at this
      exact this.2
    rcases Bool.or_eq_true_iff.mp hor with h1 | h1
    · simp [bne_iff_ne] at h1
      simp [h1]
    · simp [bne_iff_ne] at h1
      simp [h1]
  have hfind : findGHLContact env email phone =
      ([SinkCall.crmLookup email phone], none) := by
    unfold findGHLContact
    rw [hkey]
    simp only [Bool.not_true, Bool.false_eq_true, if_false, hne]
    rcases hfail with hf | ⟨st, hf⟩ <;> rw [hf]
  refine ⟨by rw [hfind], ?_⟩
  unfold crmForEvent
  rw [hlead]
  simp [bind, Except.bind, hq, hfind, createGHLContact, hkey]
  rfl

theorem lookup_failure_creates_contact_witness :
    (findGHLContact envFailingLookup "j@x.com" "15551234567").2 = none ∧
    crmForEvent envFailingLookup janeEvent janeResolution =
      .ok [SinkCall.crmLookup "j@x.com" "15551234567",
        SinkCall.crmCreate janeContactData] :=
  lookup_failure_creates_contact envFailingLookup janeEvent janeResolution
    (.str "Jane") (.str "Doe") "j@x.com" "15551234567" rfl (Or.inl rfl) rfl rfl
